import Mathlib

/-!
Verification of the CPUMonitorPy sampler (`src/main.py`) against its
natural-language specification.

The Python program is shallowly embedded: float values become `ℚ`,
`collections.deque` with `maxlen` becomes a list with FIFO eviction
(`dequeAppend`), a sampling tick of `CPUMonitor.sample` becomes a pure
state transformer over `MonitorState` driven by a `TickInput` record that
carries the outcome of each platform read (`Except Unit _` models a call
that may raise, `Option` models a `None`/falsy result), and
`psutil.sensors_temperatures()` becomes an association list of sensor
groups.  Python's single `try`/`except` around the whole tick body is
embedded by aborting the remaining updates of the tick at the first
failing read (the exception is caught, so the resulting state is kept).
-/

/-! ## Configuration (`Thresholds`, `Settings`, lines 20–36 of the source) -/

/-- Frozen threshold configuration (`Thresholds` dataclass). -/
structure Thresholds where
  cpu_warn : ℚ := 70
  cpu_crit : ℚ := 90
  temp_warn : ℚ := 70
  temp_crit : ℚ := 85

/-- Frozen settings (`Settings` dataclass).  `0.5` seconds is the rational `1/2`. -/
structure Settings where
  sample_interval_sec : ℚ := 1/2
  temp_sample_interval_sec : ℚ := 2
  window_duration_sec : ℚ := 10
  progress_bar_width : Nat := 40
  cpu_sensor_keys : List String := ["coretemp", "cpu_thermal", "k10temp", "acpitz"]

/-- `THRESHOLDS = Thresholds()`. -/
def THRESHOLDS : Thresholds := {}

/-- `SETTINGS = Settings()`. -/
def SETTINGS : Settings := {}

/-! ## Sliding windows (`deque(maxlen=…)`) -/

/-- `deque.append` on a deque with `maxlen = cap`: the new element goes to the
right; if the buffer would exceed `cap`, the oldest (leftmost) elements are
discarded.  (For an append to a buffer already within capacity at most one
element is dropped; the general form also covers `cap = 0`.) -/
def dequeAppend {α : Type} (cap : Nat) (xs : List α) (x : α) : List α :=
  let ys := xs ++ [x]
  if ys.length ≤ cap then ys else ys.drop (ys.length - cap)

/-- The last `cap` elements of a history `h` — the contents of a `maxlen = cap`
deque after appending all of `h` in order to an initially empty deque. -/
def windowOf {α : Type} (cap : Nat) (h : List α) : List α :=
  h.drop (h.length - cap)

/-- Capacity of the CPU, frequency, load and timestamp windows:
`int(SETTINGS.window_duration_sec / SETTINGS.sample_interval_sec)`
(Python `int()` truncates; the arguments are positive, so this is the floor). -/
def capBase : Nat :=
  (Rat.floor (SETTINGS.window_duration_sec / SETTINGS.sample_interval_sec)).toNat

/-- Capacity of the temperature window:
`int(SETTINGS.window_duration_sec / SETTINGS.temp_sample_interval_sec)`. -/
def capTemp : Nat :=
  (Rat.floor (SETTINGS.window_duration_sec / SETTINGS.temp_sample_interval_sec)).toNat

/-! ## Monitor state (`CPUMonitor.__init__`, lines 56–68) -/

/-- The mutable state of a `CPUMonitor`: the five windows (deques are embedded
as lists, newest element last), `_last_temp_time`, the `running` event flag and
the `end_time` (a wall-clock instant embedded as `ℚ`, `none` while unset). -/
structure MonitorState where
  cpu_samples : List ℚ
  temp_samples : List ℚ
  freq_samples : List ℚ
  load_samples : List (ℚ × ℚ × ℚ)
  timestamps : List String
  last_temp_time : ℚ
  running : Bool
  end_time : Option ℚ

/-- The state built by `CPUMonitor.__init__`: all windows empty,
`_last_temp_time = 0.0`, `running` set, `end_time = None`. -/
def initState : MonitorState :=
  { cpu_samples := []
    temp_samples := []
    freq_samples := []
    load_samples := []
    timestamps := []
    last_temp_time := 0
    running := true
    end_time := none }

/-! ## One sampling tick (`CPUMonitor.sample`, lines 87–107) -/

/-- The environment of one call to `CPUMonitor.sample`: the formatted
wall-clock string `now`, the outcome of each platform read (`Except.error`
models a raised exception), `time.time()` as `nowTs`, and the result of
`self._read_temperature()` (that helper catches its own exceptions and
returns `None` on failure, so it never raises — an `Option` suffices). -/
structure TickInput where
  now : String
  cpuRead : Except Unit ℚ
  freqRead : Except Unit (Option ℚ)
  loadRead : Except Unit (ℚ × ℚ × ℚ)
  nowTs : ℚ
  tempRead : Option ℚ

/-- `cpu_freq.current if cpu_freq else 0.0`: the sentinel for an absent
frequency reading. -/
def freqValue : Option ℚ → ℚ
  | some f => f
  | none => 0

/-- `CPUMonitor.sample`.  The whole body sits in one `try` block: the
timestamp is appended first, then CPU percent, frequency, load average, and
finally the temperature step guarded by the elapsed-time test.  A raised
exception at any read is caught by the single `except` clause, which keeps
the updates already performed and skips the rest of the tick. -/
def sample (s : MonitorState) (inp : TickInput) : MonitorState :=
  let s1 := { s with timestamps := dequeAppend capBase s.timestamps inp.now }
  match inp.cpuRead with
  | .error _ => s1
  | .ok c =>
    let s2 := { s1 with cpu_samples := dequeAppend capBase s1.cpu_samples c }
    match inp.freqRead with
    | .error _ => s2
    | .ok fr =>
      let s3 := { s2 with freq_samples := dequeAppend capBase s2.freq_samples (freqValue fr) }
      match inp.loadRead with
      | .error _ => s3
      | .ok lv =>
        let s4 := { s3 with load_samples := dequeAppend capBase s3.load_samples lv }
        if inp.nowTs - s4.last_temp_time ≥ SETTINGS.temp_sample_interval_sec then
          let s5 :=
            match inp.tempRead with
            | some t => { s4 with temp_samples := dequeAppend capTemp s4.temp_samples t }
            | none => s4
          { s5 with last_temp_time := inp.nowTs }
        else s4

/-- Iterating `sample` over a list of tick environments (the monitoring loop
of `CPUMonitor.run`, which calls `self.sample()` once per iteration). -/
def runTicks (s : MonitorState) (l : List TickInput) : MonitorState :=
  l.foldl sample s

/-- `CPUMonitor.stop` (lines 125–128): clears the running event and then
unconditionally assigns `self.end_time = datetime.now()` (embedded as the
current instant `now`). -/
def stop (s : MonitorState) (now : ℚ) : MonitorState :=
  { s with running := false, end_time := some now }

/-- `CPUMonitor.avg` (lines 120–123): `mean(data) if data else 0.0`. -/
def avg (data : List ℚ) : ℚ :=
  if data.isEmpty then 0 else data.sum / data.length

/-! ## Temperature reading (`CPUMonitor._read_temperature`, lines 109–118) -/

/-- One entry of a sensor group as returned by `psutil.sensors_temperatures()`:
a label (possibly `None`) and a current value. -/
structure TempEntry where
  label : Option String
  current : ℚ

/-- Whether `"package" in s or "core 0" in s` for a lowered character list:
contiguous-sublist containment, the meaning of Python's `in` on strings. -/
def containsSub (pat : List Char) : List Char → Bool
  | [] => List.isPrefixOf pat []
  | c :: rest => List.isPrefixOf pat (c :: rest) || containsSub pat rest

/-- `"package" in lbl.lower() or "core 0" in lbl.lower()`. -/
def labelMatchesCpu (lbl : String) : Bool :=
  containsSub ['p','a','c','k','a','g','e'] (lbl.data.map Char.toLower) ||
  containsSub ['c','o','r','e',' ','0'] (lbl.data.map Char.toLower)

/-- The generator condition `t.label and ("package" in t.label.lower() or
"core 0" in t.label.lower())`.  (An empty-string label is falsy in Python and
is skipped, but `"package" in ""` is false anyway, so the two agree.) -/
def entryMatches (t : TempEntry) : Bool :=
  match t.label with
  | some lbl => labelMatchesCpu lbl
  | none => false

/-- `CPUMonitor._read_temperature`.  `temps` is the outcome of
`psutil.sensors_temperatures()` (which may raise), a table from sensor-group
name to entries; `sensor_key` is `self._sensor_key`.  The source returns
`match or (entries[0].current if entries else None)`: Python's `or` falls
through not only on `None` but on any falsy value, so a matched labeled
entry whose reading is `0.0` also falls back to the first entry. -/
def read_temperature (sensor_key : Option String)
    (temps : Except Unit (List (String × List TempEntry))) : Option ℚ :=
  match temps with
  | .error _ => none
  | .ok table =>
    match sensor_key with
    | none => none
    | some key =>
      match table.lookup key with
      | none => none
      | some entries =>
        match entries.findSome? (fun t => if entryMatches t then some t.current else none) with
        | some v =>
          if v = 0 then (entries.head?).map TempEntry.current else some v
        | none => (entries.head?).map TempEntry.current

/-! ## Threshold classifier (`colorize`, lines 41–49) -/

/-- The color chosen by `colorize`: the three severity bands are rendered as
`"red"` (critical), `"yellow"` (warn) and `"green"` (normal). -/
def colorizeColor (value warn crit : ℚ) : String :=
  if value ≥ crit then "red"
  else if value ≥ warn then "yellow"
  else "green"

/-- `colorize` builds `f"[{color}]{value:.1f}{unit}[/{color}]"`; the `%.1f`
float formatting is abstracted as the parameter `fmt`. -/
def colorize (fmt : ℚ → String) (value warn crit : ℚ) (unit : String) : String :=
  "[" ++ colorizeColor value warn crit ++ "]" ++ fmt value ++ unit
    ++ "[/" ++ colorizeColor value warn crit ++ "]"

/-! ## CSV export (`save_data_log`, lines 260–269) -/

/-- The header row written by `save_data_log`. -/
def csvHeader : List String :=
  ["Sample #", "Timestamp", "CPU Usage (%)", "Temperature (°C)",
   "Frequency (MHz)", "Load1", "Load5", "Load15"]

/-- One data row of the CSV, for index `i` (0-based in the loop, written
1-based).  `fmt` abstracts the `"%.1f"` float formatting, `fmtL` the raw
`str()` conversion the `csv` writer applies to the load floats. -/
def csvRow (fmt fmtL : ℚ → String) (m : MonitorState) (i : Nat) : List String :=
  let ts := if i < m.timestamps.length then m.timestamps.getD i "" else ""
  let cpu := if i < m.cpu_samples.length then fmt (m.cpu_samples.getD i 0) else ""
  let temp := if i < m.temp_samples.length then fmt (m.temp_samples.getD i 0) else "N/A"
  let freq := if i < m.freq_samples.length then fmt (m.freq_samples.getD i 0) else ""
  let load :=
    if i < m.load_samples.length then
      (fun lv => (fmtL lv.1, fmtL lv.2.1, fmtL lv.2.2)) (m.load_samples.getD i (0, 0, 0))
    else ("", "", "")
  [toString (i + 1), ts, cpu, temp, freq, load.1, load.2.1, load.2.2]

/-- All data rows written by `save_data_log`:
`for i in range(len(m.cpu_samples)): writer.writerow(…)`. -/
def csvRows (fmt fmtL : ℚ → String) (m : MonitorState) : List (List String) :=
  (List.range m.cpu_samples.length).map (csvRow fmt fmtL m)

/-! ## Per-tick value extraction (for window-evolution lemmas) -/

/-- The timestamp strings appended over a run: one per tick, appended before
any read can fail. -/
def tsVals (l : List TickInput) : List String := l.map (·.now)

/-- The CPU percentages actually appended over a run: the successful CPU
reads, in order. -/
def cpuVals (l : List TickInput) : List ℚ :=
  l.filterMap (fun t => t.cpuRead.toOption)

/-- The frequency values appended over a run: a tick contributes iff its CPU
and frequency reads both succeed, and an absent reading contributes `0.0`. -/
def freqVals (l : List TickInput) : List ℚ :=
  l.filterMap (fun t =>
    match t.cpuRead, t.freqRead with
    | .ok _, .ok f => some (freqValue f)
    | _, _ => none)

/-- The load tuples appended over a run: a tick contributes iff its CPU,
frequency and load reads all succeed. -/
def loadVals (l : List TickInput) : List (ℚ × ℚ × ℚ) :=
  l.filterMap (fun t =>
    match t.cpuRead, t.freqRead, t.loadRead with
    | .ok _, .ok _, .ok v => some v
    | _, _, _ => none)

/-! ## Helper lemmas -/

/-- The base window capacity evaluates to 20 samples. -/
theorem capBase_eq : capBase = 20 := by
  have h : SETTINGS.window_duration_sec / SETTINGS.sample_interval_sec = (20 : ℚ) := by
    show (10 : ℚ) / (1/2) = 20
    norm_num
  have h3 : Rat.floor (20 : ℚ) = ⌊(20 : ℚ)⌋ := by rw [Rat.floor_def', Rat.floor_def]
  rw [capBase, h, h3]
  norm_num
  decide

/-- The temperature window capacity evaluates to 5 samples. -/
theorem capTemp_eq : capTemp = 5 := by
  have h : SETTINGS.window_duration_sec / SETTINGS.temp_sample_interval_sec = (5 : ℚ) := by
    show (10 : ℚ) / 2 = 5
    norm_num
  have h3 : Rat.floor (5 : ℚ) = ⌊(5 : ℚ)⌋ := by rw [Rat.floor_def', Rat.floor_def]
  rw [capTemp, h, h3]
  norm_num
  decide

theorem dequeAppend_eq {α : Type} (cap : Nat) (xs : List α) (x : α) :
    dequeAppend cap xs x = (xs ++ [x]).drop ((xs.length + 1) - cap) := by
  unfold dequeAppend
  simp only [List.length_append, List.length_cons, List.length_nil]
  split
  · next hle =>
    have : xs.length + 1 - cap = 0 := by omega
    rw [this, List.drop_zero]
  · rfl

theorem windowOf_dequeAppend {α : Type} (cap : Nat) (h : List α) (x : α) :
    dequeAppend cap (windowOf cap h) x = windowOf cap (h ++ [x]) := by
  rw [dequeAppend_eq]
  unfold windowOf
  have hlen : (h.drop (h.length - cap)).length = h.length - (h.length - cap) :=
    List.length_drop _ _
  rw [hlen]
  have hle : h.length - cap ≤ h.length := Nat.sub_le _ _
  rw [← List.drop_append_of_le_length hle]
  rw [List.drop_drop]
  congr 1
  simp only [List.length_append, List.length_cons, List.length_nil]
  omega

theorem length_windowOf {α : Type} (cap : Nat) (h : List α) :
    (windowOf cap h).length = min h.length cap := by
  unfold windowOf
  rw [List.length_drop]
  omega

theorem windowOf_nil {α : Type} (cap : Nat) : windowOf cap ([] : List α) = [] := by
  simp [windowOf]

theorem foldl_dequeAppend {α : Type} (cap : Nat) (vs : List α) :
    ∀ h : List α, vs.foldl (dequeAppend cap) (windowOf cap h) = windowOf cap (h ++ vs) := by
  induction vs with
  | nil => intro h; simp [List.foldl]
  | cons v rest ih =>
    intro h
    rw [List.foldl_cons, windowOf_dequeAppend, ih (h ++ [v])]
    simp

/-! Projection lemmas for one tick of `sample`. -/

theorem sample_timestamps (s : MonitorState) (inp : TickInput) :
    (sample s inp).timestamps = dequeAppend capBase s.timestamps inp.now := by
  obtain ⟨now, cr, fr, lr, nt, tr⟩ := inp
  cases cr <;> cases fr <;> cases lr <;> cases tr <;>
    simp only [sample] <;> split <;> rfl

theorem sample_running (s : MonitorState) (inp : TickInput) :
    (sample s inp).running = s.running := by
  obtain ⟨now, cr, fr, lr, nt, tr⟩ := inp
  cases cr <;> cases fr <;> cases lr <;> cases tr <;>
    simp only [sample] <;> split <;> rfl

theorem sample_end_time (s : MonitorState) (inp : TickInput) :
    (sample s inp).end_time = s.end_time := by
  obtain ⟨now, cr, fr, lr, nt, tr⟩ := inp
  cases cr <;> cases fr <;> cases lr <;> cases tr <;>
    simp only [sample] <;> split <;> rfl

theorem sample_cpu (s : MonitorState) (inp : TickInput) :
    (sample s inp).cpu_samples =
      match inp.cpuRead with
      | .ok c => dequeAppend capBase s.cpu_samples c
      | .error _ => s.cpu_samples := by
  obtain ⟨now, cr, fr, lr, nt, tr⟩ := inp
  cases cr <;> cases fr <;> cases lr <;> cases tr <;>
    simp only [sample] <;> split <;> rfl

theorem sample_freq (s : MonitorState) (inp : TickInput) :
    (sample s inp).freq_samples =
      match inp.cpuRead, inp.freqRead with
      | .ok _, .ok f => dequeAppend capBase s.freq_samples (freqValue f)
      | _, _ => s.freq_samples := by
  obtain ⟨now, cr, fr, lr, nt, tr⟩ := inp
  cases cr <;> cases fr <;> cases lr <;> cases tr <;>
    simp only [sample] <;> split <;> rfl

theorem sample_load (s : MonitorState) (inp : TickInput) :
    (sample s inp).load_samples =
      match inp.cpuRead, inp.freqRead, inp.loadRead with
      | .ok _, .ok _, .ok v => dequeAppend capBase s.load_samples v
      | _, _, _ => s.load_samples := by
  obtain ⟨now, cr, fr, lr, nt, tr⟩ := inp
  cases cr <;> cases fr <;> cases lr <;> cases tr <;>
    simp only [sample] <;> split <;> rfl

theorem sample_temp (s : MonitorState) (inp : TickInput) :
    (sample s inp).temp_samples =
      match inp.cpuRead, inp.freqRead, inp.loadRead with
      | .ok _, .ok _, .ok _ =>
        if inp.nowTs - s.last_temp_time ≥ SETTINGS.temp_sample_interval_sec then
          match inp.tempRead with
          | some t => dequeAppend capTemp s.temp_samples t
          | none => s.temp_samples
        else s.temp_samples
      | _, _, _ => s.temp_samples := by
  obtain ⟨now, cr, fr, lr, nt, tr⟩ := inp
  cases cr <;> cases fr <;> cases lr <;> cases tr <;>
    simp only [sample] <;> split <;> simp_all

theorem sample_last_temp_time (s : MonitorState) (inp : TickInput) :
    (sample s inp).last_temp_time =
      match inp.cpuRead, inp.freqRead, inp.loadRead with
      | .ok _, .ok _, .ok _ =>
        if inp.nowTs - s.last_temp_time ≥ SETTINGS.temp_sample_interval_sec then
          inp.nowTs
        else s.last_temp_time
      | _, _, _ => s.last_temp_time := by
  obtain ⟨now, cr, fr, lr, nt, tr⟩ := inp
  cases cr <;> cases fr <;> cases lr <;> cases tr <;>
    simp only [sample] <;> split <;> simp_all

/-- Evolution of the four base-cadence windows over a run: each window is the
fold of `dequeAppend` over the values its ticks actually contribute. -/
theorem runTicks_windows (inputs : List TickInput) : ∀ s : MonitorState,
    (runTicks s inputs).timestamps
        = (tsVals inputs).foldl (dequeAppend capBase) s.timestamps
    ∧ (runTicks s inputs).cpu_samples
        = (cpuVals inputs).foldl (dequeAppend capBase) s.cpu_samples
    ∧ (runTicks s inputs).freq_samples
        = (freqVals inputs).foldl (dequeAppend capBase) s.freq_samples
    ∧ (runTicks s inputs).load_samples
        = (loadVals inputs).foldl (dequeAppend capBase) s.load_samples := by
  induction inputs with
  | nil => intro s; exact ⟨rfl, rfl, rfl, rfl⟩
  | cons t rest ih =>
    intro s
    have hr : runTicks s (t :: rest) = runTicks (sample s t) rest := rfl
    obtain ⟨h1, h2, h3, h4⟩ := ih (sample s t)
    rw [hr]
    refine ⟨?_, ?_, ?_, ?_⟩
    · rw [h1, sample_timestamps]
      simp [tsVals]
    · rw [h2, sample_cpu]
      cases hc : t.cpuRead <;>
        simp [cpuVals, List.filterMap_cons, hc, Except.toOption]
    · rw [h3, sample_freq]
      cases hc : t.cpuRead <;> cases hf : t.freqRead <;>
        simp [freqVals, List.filterMap_cons, hc, hf]
    · rw [h4, sample_load]
      cases hc : t.cpuRead <;> cases hf : t.freqRead <;> cases hl : t.loadRead <;>
        simp [loadVals, List.filterMap_cons, hc, hf, hl]

/-- Specialization to the initial state: each base window holds the suffix of
its contributed values that fits the capacity. -/
theorem runTicks_windows_init (inputs : List TickInput) :
    (runTicks initState inputs).timestamps = windowOf capBase (tsVals inputs)
    ∧ (runTicks initState inputs).cpu_samples = windowOf capBase (cpuVals inputs)
    ∧ (runTicks initState inputs).freq_samples = windowOf capBase (freqVals inputs)
    ∧ (runTicks initState inputs).load_samples = windowOf capBase (loadVals inputs) := by
  obtain ⟨h1, h2, h3, h4⟩ := runTicks_windows inputs initState
  have hnil : ∀ {α : Type} (vs : List α),
      vs.foldl (dequeAppend capBase) [] = windowOf capBase vs := by
    intro α vs
    have := foldl_dequeAppend capBase vs ([] : List α)
    rw [windowOf_nil] at this
    simpa using this
  refine ⟨?_, ?_, ?_, ?_⟩
  · rw [h1]; exact hnil _
  · rw [h2]; exact hnil _
  · rw [h3]; exact hnil _
  · rw [h4]; exact hnil _

/-! ## Claim theorems -/

/-- C1: over any run, the CPU window holds exactly the last `min (L, C)` of
the `L` successfully read CPU percentages, in insertion order (the oldest
evicted first once `L` exceeds the capacity `C = capBase`), and its length is
`min (L, C)` — in particular it never exceeds the capacity. -/
theorem cpu_window_fifo (inputs : List TickInput) :
    (runTicks initState inputs).cpu_samples
      = (cpuVals inputs).drop ((cpuVals inputs).length - capBase)
    ∧ (runTicks initState inputs).cpu_samples.length
      = min (cpuVals inputs).length capBase := by
  have h := (runTicks_windows_init inputs).2.1
  exact ⟨h, by rw [h, length_windowOf]⟩

/-- C9: `CPUMonitor.avg` returns 0 on the empty window, returns `x` on the
singleton `[x]`, is total (it is a Lean function, defined on every list), and
is invariant under permutation of the window's elements. -/
theorem avg_spec :
    avg [] = 0
    ∧ (∀ x : ℚ, avg [x] = x)
    ∧ (∀ l l' : List ℚ, l.Perm l' → avg l = avg l') := by
  refine ⟨rfl, ?_, ?_⟩
  · intro x
    simp [avg]
  · intro l l' hp
    have hlen := hp.length_eq
    have hsum := hp.sum_eq
    unfold avg
    have hemp : l.isEmpty = l'.isEmpty := by
      cases l <;> cases l' <;> simp_all
    rw [hemp, hsum, hlen]

/-- C9 witness: concrete permutation instance of the average invariance. -/
theorem avg_spec_witness :
    ([1, 2] : List ℚ).Perm [2, 1] ∧ avg [1, 2] = avg [2, 1] :=
  ⟨by decide, avg_spec.2.2 [1, 2] [2, 1] (by decide)⟩

/-- C5: for `warn < crit` the classifier underlying `colorize` lands in
exactly one of the three bands, with inclusive lower bounds: red (critical)
iff `value ≥ crit`, yellow (warn) iff `warn ≤ value < crit`, green (normal)
iff `value < warn`; in particular the boundaries classify upward. -/
theorem colorize_classifier (v w c : ℚ) (hwc : w < c) :
    ((colorizeColor v w c = "red" ↔ c ≤ v)
    ∧ (colorizeColor v w c = "yellow" ↔ w ≤ v ∧ v < c)
    ∧ (colorizeColor v w c = "green" ↔ v < w))
    ∧ colorizeColor c w c = "red"
    ∧ colorizeColor w w c = "yellow" := by
  have key : ∀ x : ℚ,
      (colorizeColor x w c = "red" ↔ c ≤ x)
      ∧ (colorizeColor x w c = "yellow" ↔ w ≤ x ∧ x < c)
      ∧ (colorizeColor x w c = "green" ↔ x < w) := by
    intro x
    unfold colorizeColor
    split_ifs with h1 h2
    · exact ⟨⟨fun _ => h1, fun _ => rfl⟩,
        ⟨fun hs => absurd hs (by decide), fun hpair => absurd h1 (not_le.mpr hpair.2)⟩,
        ⟨fun hs => absurd hs (by decide), fun hlt => absurd h1 (not_le.mpr (lt_trans hlt hwc))⟩⟩
    · exact ⟨⟨fun hs => absurd hs (by decide), fun hle => absurd hle h1⟩,
        ⟨fun _ => ⟨h2, not_le.mp h1⟩, fun _ => rfl⟩,
        ⟨fun hs => absurd hs (by decide), fun hlt => absurd h2 (not_le.mpr hlt)⟩⟩
    · exact ⟨⟨fun hs => absurd hs (by decide), fun hle => absurd hle h1⟩,
        ⟨fun hs => absurd hs (by decide), fun hpair => absurd hpair.1 h2⟩,
        ⟨fun _ => not_le.mp h2, fun _ => rfl⟩⟩
  exact ⟨key v, (key c).1.mpr le_rfl, (key w).2.1.mpr ⟨le_rfl, hwc⟩⟩

/-- C5 witness: the classifier at the concrete triple (95, warn 70, crit 90)
is red (critical). -/
theorem colorize_classifier_witness :
    (70 : ℚ) < 90 ∧ colorizeColor 95 70 90 = "red" :=
  ⟨by decide, ((colorize_classifier 95 70 90 (by decide)).1.1).mpr (by decide)⟩

/-- C3 counterexample: a second call to `stop` is not a no-op — it overwrites
the already-recorded end time with the later instant. -/
theorem stop_second_call_changes_end_time :
    (stop (stop initState 1) 2).end_time = some 2
    ∧ (stop initState 1).end_time = some 1
    ∧ (2 : ℚ) ≠ 1 :=
  ⟨rfl, rfl, by decide⟩

/-- C3 amended: every call to `stop` clears the running flag and
unconditionally records the current instant as the end time; a second call
therefore overwrites the end time with its own (later) instant, and the
running flag stays cleared — `sample` never touches it, so it cannot
re-open. -/
theorem stop_behavior (s : MonitorState) (t t' : ℚ) (inp : TickInput) :
    (stop s t).running = false
    ∧ (stop s t).end_time = some t
    ∧ (stop (stop s t) t').end_time = some t'
    ∧ (stop (stop s t) t').running = false
    ∧ (sample s inp).running = s.running :=
  ⟨rfl, rfl, rfl, rfl, sample_running s inp⟩

/-- A tick whose CPU-percent read raises while every other read would have
succeeded and the temperature is due. -/
def tickCpuFail : TickInput :=
  { now := "2024-01-01 00:00:00"
    cpuRead := .error ()
    freqRead := .ok (some 1200)
    loadRead := .ok (1, 1, 1)
    nowTs := 100
    tempRead := some 50 }

/-- C2 counterexample: in a tick whose CPU read fails, the frequency, load
and (due) temperature windows are NOT updated — the single `try`/`except`
around the whole tick body aborts the rest of the tick. -/
theorem tick_cpu_failure_blocks_other_metrics :
    tickCpuFail.cpuRead = .error ()
    ∧ tickCpuFail.freqRead = .ok (some 1200)
    ∧ tickCpuFail.loadRead = .ok (1, 1, 1)
    ∧ tickCpuFail.tempRead = some 50
    ∧ tickCpuFail.nowTs - initState.last_temp_time ≥ SETTINGS.temp_sample_interval_sec
    ∧ (sample initState tickCpuFail).freq_samples = []
    ∧ (sample initState tickCpuFail).load_samples = []
    ∧ (sample initState tickCpuFail).temp_samples = [] := by
  refine ⟨rfl, rfl, rfl, rfl, ?_, rfl, rfl, rfl⟩
  show (100 : ℚ) - 0 ≥ 2
  norm_num

/-- C2 amended: a read failure aborts the remainder of its tick: the appends
performed before the failing read persist (the timestamp always does), the
later metrics are skipped for that tick, and nothing else of the state
changes; the exception is caught, so the loop continues with this state. -/
theorem tick_failure_aborts_rest (s : MonitorState) (inp : TickInput) :
    (inp.cpuRead = .error () →
      sample s inp = { s with timestamps := dequeAppend capBase s.timestamps inp.now })
    ∧ (∀ c : ℚ, inp.cpuRead = .ok c → inp.freqRead = .error () →
      sample s inp = { s with
        timestamps := dequeAppend capBase s.timestamps inp.now
        cpu_samples := dequeAppend capBase s.cpu_samples c })
    ∧ (∀ (c : ℚ) (f : Option ℚ),
        inp.cpuRead = .ok c → inp.freqRead = .ok f → inp.loadRead = .error () →
      sample s inp = { s with
        timestamps := dequeAppend capBase s.timestamps inp.now
        cpu_samples := dequeAppend capBase s.cpu_samples c
        freq_samples := dequeAppend capBase s.freq_samples (freqValue f) }) := by
  obtain ⟨now, cr, fr, lr, nt, tr⟩ := inp
  refine ⟨?_, ?_, ?_⟩
  · intro h
    subst h
    rfl
  · intro c h1 h2
    subst h1
    subst h2
    rfl
  · intro c f h1 h2 h3
    subst h1
    subst h2
    subst h3
    rfl

/-- C2 amended witness: the concrete CPU-failure tick leaves everything but
the timestamp window unchanged. -/
theorem tick_failure_aborts_rest_witness :
    tickCpuFail.cpuRead = .error ()
    ∧ sample initState tickCpuFail
        = { initState with
            timestamps := dequeAppend capBase initState.timestamps tickCpuFail.now } :=
  ⟨rfl, (tick_failure_aborts_rest initState tickCpuFail).1 rfl⟩

/-- A tick whose load-average read raises while the CPU and frequency reads
succeed, with the temperature due and readable. -/
def tickLoadFail : TickInput :=
  { now := "2024-01-01 00:00:01"
    cpuRead := .ok 50
    freqRead := .ok (some 1200)
    loadRead := .error ()
    nowTs := 100
    tempRead := some 42 }

/-- A tick in which every read succeeds and the temperature is due. -/
def tickAllOk : TickInput :=
  { now := "2024-01-01 00:00:02"
    cpuRead := .ok 50
    freqRead := .ok (some 1200)
    loadRead := .ok (1, 1, 1)
    nowTs := 100
    tempRead := some 42 }

/-- C6 counterexample: in this tick the elapsed time since the last recorded
temperature time is at least the temperature interval and a reading is
available, yet no temperature read is attempted — the load read raised
earlier in the tick, aborting it — so the temperature window gains nothing
and the last-temperature time is not advanced. -/
theorem temp_step_skipped_in_aborted_tick :
    tickLoadFail.nowTs - initState.last_temp_time ≥ SETTINGS.temp_sample_interval_sec
    ∧ tickLoadFail.tempRead = some 42
    ∧ (sample initState tickLoadFail).temp_samples = []
    ∧ (sample initState tickLoadFail).last_temp_time = initState.last_temp_time := by
  refine ⟨?_, rfl, rfl, rfl⟩
  show (100 : ℚ) - 0 ≥ 2
  norm_num

/-- C6 amended: in every tick whose CPU, frequency and load reads succeed,
the temperature step runs iff the elapsed time since the last recorded
temperature time is at least the temperature sampling interval; when it
runs, a successful reading is appended to the temperature window and an
absent one appends nothing, while the last-temperature time is set to the
tick's clock in either case; when it does not run, both are unchanged. -/
theorem temperature_cadence (s : MonitorState) (inp : TickInput) (c : ℚ)
    (f : Option ℚ) (lv : ℚ × ℚ × ℚ)
    (hc : inp.cpuRead = .ok c) (hf : inp.freqRead = .ok f) (hl : inp.loadRead = .ok lv) :
    (inp.nowTs - s.last_temp_time ≥ SETTINGS.temp_sample_interval_sec →
      (sample s inp).last_temp_time = inp.nowTs
      ∧ (sample s inp).temp_samples =
          (match inp.tempRead with
           | some t => dequeAppend capTemp s.temp_samples t
           | none => s.temp_samples))
    ∧ (¬ inp.nowTs - s.last_temp_time ≥ SETTINGS.temp_sample_interval_sec →
      (sample s inp).last_temp_time = s.last_temp_time
      ∧ (sample s inp).temp_samples = s.temp_samples) := by
  constructor
  · intro hdue
    constructor
    · rw [sample_last_temp_time, hc, hf, hl]
      simp [hdue]
    · rw [sample_temp, hc, hf, hl]
      simp [hdue]
  · intro hnot
    constructor
    · rw [sample_last_temp_time, hc, hf, hl]
      simp [hnot]
    · rw [sample_temp, hc, hf, hl]
      simp [hnot]

/-- C6 amended witness: in the all-successful due tick, the last-temperature
time advances to the tick's clock. -/
theorem temperature_cadence_witness :
    tickAllOk.nowTs - initState.last_temp_time ≥ SETTINGS.temp_sample_interval_sec
    ∧ (sample initState tickAllOk).last_temp_time = tickAllOk.nowTs := by
  have hdue : tickAllOk.nowTs - initState.last_temp_time
      ≥ SETTINGS.temp_sample_interval_sec := by
    show (100 : ℚ) - 0 ≥ 2
    norm_num
  exact ⟨hdue,
    ((temperature_cadence initState tickAllOk 50 (some 1200) (1, 1, 1) rfl rfl rfl).1 hdue).1⟩

/-- Under all-successful CPU reads, every tick contributes one CPU sample. -/
theorem cpuVals_length_of_ok : ∀ inputs : List TickInput,
    (∀ t ∈ inputs, t.cpuRead.isOk = true) → (cpuVals inputs).length = inputs.length := by
  intro inputs
  induction inputs with
  | nil => intro _; rfl
  | cons t rest ih =>
    intro hok
    have ht := hok t (List.mem_cons_self t rest)
    have hrest := ih (fun u hu => hok u (List.mem_cons_of_mem t hu))
    cases hc : t.cpuRead with
    | ok c =>
      simp only [cpuVals, List.filterMap_cons, hc, Except.toOption] at hrest ⊢
      simp [hrest]
    | error e =>
      rw [hc] at ht
      exact absurd ht (by simp [Except.isOk, Except.toBool])

/-- Under all-successful CPU and frequency reads, every tick contributes one
frequency sample. -/
theorem freqVals_length_of_ok : ∀ inputs : List TickInput,
    (∀ t ∈ inputs, t.cpuRead.isOk = true ∧ t.freqRead.isOk = true) →
    (freqVals inputs).length = inputs.length := by
  intro inputs
  induction inputs with
  | nil => intro _; rfl
  | cons t rest ih =>
    intro hok
    have ht := hok t (List.mem_cons_self t rest)
    have hrest := ih (fun u hu => hok u (List.mem_cons_of_mem t hu))
    cases hc : t.cpuRead with
    | error e =>
      rw [hc] at ht
      exact absurd ht.1 (by simp [Except.isOk, Except.toBool])
    | ok c =>
      cases hf : t.freqRead with
      | error e =>
        rw [hf] at ht
        exact absurd ht.2 (by simp [Except.isOk, Except.toBool])
      | ok f =>
        simp only [freqVals, List.filterMap_cons, hc, hf] at hrest ⊢
        simp [hrest]

/-- Under all-successful CPU, frequency and load reads, every tick
contributes one load sample. -/
theorem loadVals_length_of_ok : ∀ inputs : List TickInput,
    (∀ t ∈ inputs, t.cpuRead.isOk = true ∧ t.freqRead.isOk = true ∧ t.loadRead.isOk = true) →
    (loadVals inputs).length = inputs.length := by
  intro inputs
  induction inputs with
  | nil => intro _; rfl
  | cons t rest ih =>
    intro hok
    have ht := hok t (List.mem_cons_self t rest)
    have hrest := ih (fun u hu => hok u (List.mem_cons_of_mem t hu))
    cases hc : t.cpuRead with
    | error e =>
      rw [hc] at ht
      exact absurd ht.1 (by simp [Except.isOk, Except.toBool])
    | ok c =>
      cases hf : t.freqRead with
      | error e =>
        rw [hf] at ht
        exact absurd ht.2.1 (by simp [Except.isOk, Except.toBool])
      | ok f =>
        cases hl : t.loadRead with
        | error e =>
          rw [hl] at ht
          exact absurd ht.2.2 (by simp [Except.isOk, Except.toBool])
        | ok lv =>
          simp only [loadVals, List.filterMap_cons, hc, hf, hl] at hrest ⊢
          simp [hrest]

/-- C8 counterexample: after a single tick whose CPU read fails, the
timestamp window holds one entry while the CPU window is empty — the
timestamp append precedes the CPU read, so the two windows desynchronize. -/
theorem timestamp_window_outruns_cpu_window :
    tickCpuFail.cpuRead = .error ()
    ∧ (sample initState tickCpuFail).timestamps.length = 1
    ∧ (sample initState tickCpuFail).cpu_samples.length = 0 := by
  refine ⟨rfl, ?_, rfl⟩
  rw [sample_timestamps, capBase_eq]
  rfl

/-- C8 amended: the timestamp window receives exactly one entry per tick —
whether or not the CPU read succeeds — and has the same capacity as the CPU
window; the two windows have equal lengths as long as every CPU read of the
run succeeded. -/
theorem timestamp_per_tick (s : MonitorState) (inp : TickInput) (inputs : List TickInput)
    (hok : ∀ t ∈ inputs, t.cpuRead.isOk = true) :
    (sample s inp).timestamps = dequeAppend capBase s.timestamps inp.now
    ∧ (runTicks initState inputs).timestamps.length
        = (runTicks initState inputs).cpu_samples.length := by
  refine ⟨sample_timestamps s inp, ?_⟩
  obtain ⟨h1, h2, _, _⟩ := runTicks_windows_init inputs
  rw [h1, h2, length_windowOf, length_windowOf]
  have hts : (tsVals inputs).length = inputs.length := List.length_map _ _
  rw [hts, cpuVals_length_of_ok inputs hok]

/-- C8 amended witness: one all-successful tick keeps the two windows at
equal length. -/
theorem timestamp_per_tick_witness :
    (∀ t ∈ [tickAllOk], t.cpuRead.isOk = true)
    ∧ (runTicks initState [tickAllOk]).timestamps.length
        = (runTicks initState [tickAllOk]).cpu_samples.length := by
  have hok : ∀ t ∈ [tickAllOk], t.cpuRead.isOk = true := by
    intro t ht
    rw [List.mem_singleton] at ht
    subst ht
    rfl
  exact ⟨hok, (timestamp_per_tick initState tickAllOk [tickAllOk] hok).2⟩

/-- C10: over any run in which no read ever fails, the four base-cadence
windows (timestamps, CPU, frequency, load) all have length
`min (number of ticks) capBase`, hence equal lengths up to the shared
capacity; moreover a tick whose frequency object is absent (falsy) appends
the sentinel 0.0 to the frequency window, so that window never lags. -/
theorem base_windows_aligned (inputs : List TickInput)
    (hok : ∀ t ∈ inputs,
      t.cpuRead.isOk = true ∧ t.freqRead.isOk = true ∧ t.loadRead.isOk = true) :
    ((runTicks initState inputs).timestamps.length = min inputs.length capBase
    ∧ (runTicks initState inputs).cpu_samples.length = min inputs.length capBase
    ∧ (runTicks initState inputs).freq_samples.length = min inputs.length capBase
    ∧ (runTicks initState inputs).load_samples.length = min inputs.length capBase)
    ∧ (∀ (s : MonitorState) (inp : TickInput) (c : ℚ),
        inp.cpuRead = .ok c → inp.freqRead = .ok none →
        (sample s inp).freq_samples = dequeAppend capBase s.freq_samples 0) := by
  constructor
  · obtain ⟨h1, h2, h3, h4⟩ := runTicks_windows_init inputs
    have hts : (tsVals inputs).length = inputs.length := List.length_map _ _
    have hcpu := cpuVals_length_of_ok inputs (fun t ht => (hok t ht).1)
    have hfreq := freqVals_length_of_ok inputs (fun t ht => ⟨(hok t ht).1, (hok t ht).2.1⟩)
    have hload := loadVals_length_of_ok inputs hok
    refine ⟨?_, ?_, ?_, ?_⟩
    · rw [h1, length_windowOf, hts]
    · rw [h2, length_windowOf, hcpu]
    · rw [h3, length_windowOf, hfreq]
    · rw [h4, length_windowOf, hload]
  · intro s inp c hc hf
    rw [sample_freq, hc, hf]
    rfl

/-- C10 witness: a one-tick all-successful run leaves all four base windows
at length one. -/
theorem base_windows_aligned_witness :
    (∀ t ∈ [tickAllOk],
      t.cpuRead.isOk = true ∧ t.freqRead.isOk = true ∧ t.loadRead.isOk = true)
    ∧ (runTicks initState [tickAllOk]).cpu_samples.length = min 1 capBase := by
  have hok : ∀ t ∈ [tickAllOk],
      t.cpuRead.isOk = true ∧ t.freqRead.isOk = true ∧ t.loadRead.isOk = true := by
    intro t ht
    rw [List.mem_singleton] at ht
    subst ht
    exact ⟨rfl, rfl, rfl⟩
  exact ⟨hok, (base_windows_aligned [tickAllOk] hok).1.2.1⟩

/-- Row `i` of the CSV body, as a list access. -/
theorem csvRows_getD (fmt fmtL : ℚ → String) (m : MonitorState) (i : Nat)
    (hi : i < m.cpu_samples.length) :
    (csvRows fmt fmtL m).getD i [] = csvRow fmt fmtL m i := by
  unfold csvRows
  rw [List.getD_eq_getElem?_getD, List.getElem?_map, List.getElem?_range hi]
  rfl

/-- C4: the CSV export writes exactly one data row per element of the CPU
window, each row has all 8 fields (never truncated), the first field is the
1-based sample index, the temperature field is the literal "N/A" exactly for
indices at or beyond the temperature window's length (and the formatted
temperature below it), and indices beyond the frequency or load windows
yield empty fields. -/
theorem csv_export_rows (fmt fmtL : ℚ → String) (m : MonitorState) :
    (csvRows fmt fmtL m).length = m.cpu_samples.length
    ∧ ∀ i : Nat, i < m.cpu_samples.length →
        ((csvRows fmt fmtL m).getD i []).length = 8
        ∧ ((csvRows fmt fmtL m).getD i []).getD 0 "" = toString (i + 1)
        ∧ (m.temp_samples.length ≤ i → ((csvRows fmt fmtL m).getD i []).getD 3 "" = "N/A")
        ∧ (i < m.temp_samples.length →
            ((csvRows fmt fmtL m).getD i []).getD 3 "" = fmt (m.temp_samples.getD i 0))
        ∧ (m.freq_samples.length ≤ i → ((csvRows fmt fmtL m).getD i []).getD 4 "" = "")
        ∧ (m.load_samples.length ≤ i →
            ((csvRows fmt fmtL m).getD i []).getD 5 "" = ""
            ∧ ((csvRows fmt fmtL m).getD i []).getD 6 "" = ""
            ∧ ((csvRows fmt fmtL m).getD i []).getD 7 "" = "") := by
  constructor
  · unfold csvRows
    rw [List.length_map, List.length_range]
  · intro i hi
    rw [csvRows_getD fmt fmtL m i hi]
    unfold csvRow
    refine ⟨rfl, rfl, ?_, ?_, ?_, ?_⟩
    · intro h
      simp [if_neg (Nat.not_lt.mpr h)]
    · intro h
      simp [if_pos h]
    · intro h
      simp [if_neg (Nat.not_lt.mpr h)]
    · intro h
      refine ⟨?_, ?_, ?_⟩ <;> simp [if_neg (Nat.not_lt.mpr h)]

/-- A concrete final state: CPU window of length 3, temperature window of
length 1 (the scenario of a shorter temperature window). -/
def mEx : MonitorState :=
  { initState with
    cpu_samples := [10, 20, 30]
    temp_samples := [5]
    freq_samples := [1, 2, 3]
    load_samples := [(1, 1, 1)]
    timestamps := ["a", "b", "c"] }

/-- C4 witness: in the concrete state, row 3 (index 2) exists and its
temperature field is the literal "N/A". -/
theorem csv_export_rows_witness :
    (2 < mEx.cpu_samples.length ∧ mEx.temp_samples.length ≤ 2)
    ∧ ((csvRows toString toString mEx).getD 2 []).getD 3 "" = "N/A" := by
  have h2 : 2 < mEx.cpu_samples.length := by decide
  have hle : mEx.temp_samples.length ≤ 2 := by decide
  exact ⟨⟨h2, hle⟩, (((csv_export_rows toString toString mEx).2 2 h2).2.2.1) hle⟩

/-- `next((f t for t in l if p t), None)` as `find?`: extracting a projection
of the first element satisfying a predicate. -/
theorem findSome?_filter_eq_find?_map {α β : Type} (p : α → Bool) (f : α → β) :
    ∀ l : List α,
      l.findSome? (fun t => if p t then some (f t) else none) = (l.find? p).map f := by
  intro l
  induction l with
  | nil => rfl
  | cons a as ih =>
    by_cases hp : p a
    · simp [List.findSome?_cons, List.find?_cons, hp]
    · simp [List.findSome?_cons, List.find?_cons, hp, ih]

/-- C7 amended: `_read_temperature` returns absent when the key is
unresolved, when the sensor table read raises, when the key is missing from
the table, or when the group is empty; with no matching labeled entry it
falls back to the first entry of the group; with a matching labeled entry it
returns that entry's value — except that a matched value of exactly 0.0 is
falsy under Python's `or` and falls back to the first entry as well. -/
theorem read_temperature_spec (key : String) (table : List (String × List TempEntry)) :
    read_temperature none (.ok table) = none
    ∧ (∀ e : Unit, read_temperature (some key) (.error e) = none)
    ∧ (table.lookup key = none → read_temperature (some key) (.ok table) = none)
    ∧ (∀ entries : List TempEntry, table.lookup key = some entries →
        (entries = [] → read_temperature (some key) (.ok table) = none)
        ∧ (entries.find? entryMatches = none →
            read_temperature (some key) (.ok table) = (entries.head?).map TempEntry.current)
        ∧ (∀ e : TempEntry, entries.find? entryMatches = some e →
            read_temperature (some key) (.ok table) =
              if e.current = 0 then (entries.head?).map TempEntry.current
              else some e.current)) := by
  refine ⟨rfl, fun e => rfl, ?_, ?_⟩
  · intro hlk
    simp only [read_temperature, hlk]
  · intro entries hlk
    have hbody : read_temperature (some key) (.ok table) =
        match entries.findSome? (fun t => if entryMatches t then some t.current else none) with
        | some v => if v = 0 then (entries.head?).map TempEntry.current else some v
        | none => (entries.head?).map TempEntry.current := by
      simp only [read_temperature, hlk]
    refine ⟨?_, ?_, ?_⟩
    · intro he
      subst he
      rw [hbody]
      rfl
    · intro hnone
      rw [hbody, findSome?_filter_eq_find?_map entryMatches TempEntry.current entries, hnone]
      rfl
    · intro e he
      rw [hbody, findSome?_filter_eq_find?_map entryMatches TempEntry.current entries, he]
      rfl

/-- The sensor-entry group of the C7 counterexample: an unlabeled first entry
reading 30 and a matching "Package id 0" entry reading exactly 0.0. -/
def cexEntries : List TempEntry := [⟨none, 30⟩, ⟨some "Package id 0", 0⟩]

/-- The sensor table of the C7 counterexample. -/
def cexTable : List (String × List TempEntry) := [("coretemp", cexEntries)]

/-- C7 counterexample: a matching labeled entry exists (label "Package id 0",
reading 0.0), yet `_read_temperature` does not return its value: Python's
`match or …` treats the 0.0 reading as falsy and falls back to the first
entry of the group, returning 30 instead of 0. -/
theorem temp_read_falsy_zero_fallback :
    entryMatches ⟨some "Package id 0", 0⟩ = true
    ∧ read_temperature (some "coretemp") (.ok cexTable) = some 30
    ∧ (30 : ℚ) ≠ 0 := by
  refine ⟨by decide, by decide, by decide⟩

/-- The sensor-entry group of the C7 witness: a matching labeled entry with a
nonzero reading followed by an unlabeled entry. -/
def wEntries : List TempEntry := [⟨some "Package id 0", 55⟩, ⟨none, 40⟩]

/-- The sensor table of the C7 witness. -/
def wTable : List (String × List TempEntry) := [("coretemp", wEntries)]

/-- C7 amended witness: with a matching labeled entry reading 55, the read
returns 55. -/
theorem read_temperature_spec_witness :
    wTable.lookup "coretemp" = some wEntries
    ∧ wEntries.find? entryMatches = some ⟨some "Package id 0", 55⟩
    ∧ read_temperature (some "coretemp") (.ok wTable) = some 55 := by
  have hlk : wTable.lookup "coretemp" = some wEntries := rfl
  have hfind : wEntries.find? entryMatches = some ⟨some "Package id 0", 55⟩ := by
    have hm : entryMatches ⟨some "Package id 0", 55⟩ = true := by decide
    simp [wEntries, List.find?_cons, hm]
  have h := ((((read_temperature_spec "coretemp" wTable).2.2.2) wEntries hlk).2.2)
    ⟨some "Package id 0", 55⟩ hfind
  refine ⟨hlk, hfind, ?_⟩
  rw [h]
  norm_num
